import Mathlib

/-!
Verification development for the training-loop orchestration in `train.py`
of the articulated-animation repository.

The file shallow-embeds the code of `train.py` (function `train`, lines
27-73, and the command-line runner, lines 76-110) together with the
documented semantics of the library collaborators it calls:

* `torch.optim.Adam` construction (lines 30-32): only the hyperparameters
  passed at construction are modelled (`AdamConfig`).
* `torch.optim.lr_scheduler.MultiStepLR` (line 40): modelled by its closed
  form, with the constructor performing one internal step exactly as the
  library constructor does (`MultiStepLR.construct`).
* `torch.utils.data.DataLoader` with `drop_last=True` (lines 45-46):
  modelled by `fullBatches`, which chunks a (shuffled) epoch ordering into
  full batches and discards any trailing partial batch.  The per-epoch
  shuffle order is an explicit input (a stream of orderings), because the
  code neither seeds nor persists the shuffling RNG.
* The three neural modules, autodiff and the Adam update rule are kept
  abstract in a `ModelOps` record: the forward pass maps parameters and a
  batch to a mapping of named per-example loss terms plus auxiliary
  outputs, `backward` produces the gradient of a scalar, and `optStep`
  applies one optimizer update.

Python-level failure modes that the claims are about are made explicit:
`TrainError.keyError` models the `KeyError` raised by
`train_params['num_repeats']` when the key is absent (line 42), and
`TrainError.unboundLocal` models the `NameError` raised at the epoch
boundary (line 73) when the loop variable `x` was never bound because the
dataloader yielded zero batches.
-/

/-- Mean of a list of rationals; embeds `tensor.mean()` for a per-example
loss tensor (sum divided by the number of elements). -/
def mean (l : List ℚ) : ℚ := l.sum / l.length

/-- Auxiliary chunking function, structurally recursive on a fuel argument so
that it computes by kernel reduction.  One step peels off a full batch of
size `B` whenever at least `B` examples remain. -/
def fullBatchesAux (B : ℕ) : ℕ → List α → List (List α)
  | 0, _ => []
  | fuel + 1, xs =>
    if 0 < B ∧ B ≤ xs.length then
      xs.take B :: fullBatchesAux B fuel (xs.drop B)
    else []

/-- Batches produced by one pass of `DataLoader(..., batch_size=B,
drop_last=True)` over the list `xs` (already in its shuffled epoch order):
consecutive chunks of exactly `B` examples; a trailing group smaller than
`B` is dropped.  Embeds lines 45-46 of `train.py`. -/
def fullBatches (B : ℕ) (xs : List α) : List (List α) :=
  fullBatchesAux B xs.length xs

/-- Modelled from the spec: `DatasetRepeater` (defined in
`frames_dataset.py`, which is not under `src/`) wraps a dataset so that it
logically repeats itself `num_repeats` times, decoupling epoch length from
raw dataset size. -/
def datasetRepeater : ℕ → List α → List α
  | 0, _ => []
  | n + 1, ds => ds ++ datasetRepeater n ds

/-- Errors of the Python process that the embedded `train` can raise. -/
inductive TrainError where
  /-- `KeyError` from evaluating `train_params['num_repeats']` on a
  configuration lacking the key (line 42). -/
  | keyError
  /-- `NameError` from reading the loop variable `x` (and `generated`) at
  the epoch-boundary logging call (line 73) when the inner loop never ran. -/
  | unboundLocal
deriving DecidableEq, Repr

/-- The `train_params` section of the configuration, as the keys that
`train` reads.  Optional keys of the YAML mapping are `Option` fields.  The
`betas` field stands for a (hypothetical) beta-coefficients entry of the
configuration mapping: the mapping may carry it, but `train` never reads
it (line 32 passes a literal). -/
structure TrainParams where
  lr : ℚ
  epoch_milestones : List ℕ
  num_epochs : ℕ
  batch_size : ℕ
  dataloader_workers : ℕ
  checkpoint_freq : ℕ
  num_repeats : Option ℕ
  use_sync_bn : Option Bool
  betas : Option (ℚ × ℚ)
deriving DecidableEq, Repr

/-- Hyperparameters fixed at `torch.optim.Adam` construction. -/
structure AdamConfig where
  lr : ℚ
  beta1 : ℚ
  beta2 : ℚ
deriving DecidableEq, Repr

/-- The Adam optimizer constructed by `train` (lines 30-32):
`torch.optim.Adam(params, lr=train_params['lr'], betas=(0.5, 0.999))`.
The learning rate is read from the configuration; the beta coefficients
are the literal pair `(0.5, 0.999)`. -/
def makeOptimizer (tp : TrainParams) : AdamConfig :=
  { lr := tp.lr, beta1 := 1 / 2, beta2 := 999 / 1000 }

/-- State of `torch.optim.lr_scheduler.MultiStepLR`, modelled by its closed
form: the learning-rate multiplier is `gamma ^ (number of milestones that
are at most last_epoch)`. -/
structure MultiStepLR where
  milestones : List ℕ
  gamma : ℚ
  lastEpoch : ℤ
deriving DecidableEq, Repr

/-- Number of milestones the epoch counter has passed. -/
def MultiStepLR.decayCount (s : MultiStepLR) : ℕ :=
  s.milestones.countP (fun (m : ℕ) => (↑m : ℤ) ≤ s.lastEpoch)

/-- Closed-form learning-rate multiplier of `MultiStepLR`. -/
def MultiStepLR.lrMultiplier (s : MultiStepLR) : ℚ :=
  s.gamma ^ s.decayCount

/-- One `scheduler.step()`: the epoch counter advances by one. -/
def MultiStepLR.step (s : MultiStepLR) : MultiStepLR :=
  { s with lastEpoch := s.lastEpoch + 1 }

/-- Iterated `scheduler.step()`. -/
def MultiStepLR.stepN : MultiStepLR → ℕ → MultiStepLR
  | s, 0 => s
  | s, k + 1 => s.step.stepN k

/-- Construction `MultiStepLR(optimizer, milestones, gamma=0.1,
last_epoch=L)` (line 40 of `train.py`): the library constructor stores `L`
and then performs one internal `step()`, so the state it returns already
has its epoch counter at `L + 1`. -/
def MultiStepLR.construct (ms : List ℕ) (lastEpoch : ℤ) : MultiStepLR :=
  MultiStepLR.step { milestones := ms, gamma := 1 / 10, lastEpoch := lastEpoch }

/-- Modelled from the spec: `Logger.load_cpk` (defined in `logger.py`,
which is not under `src/`) returns the epoch number at which the restored
checkpoint was taken; with no checkpoint the start epoch is `0`
(lines 34-38 of `train.py`).  The restored module and optimizer state is
represented by the initial `TrainState` that the caller of `train`
supplies. -/
def startEpochOf : Option ℕ → ℕ
  | some e => e
  | none => 0

/-- The scheduler as `train` constructs it at line 40:
`MultiStepLR(optimizer, train_params['epoch_milestones'], gamma=0.1,
last_epoch=start_epoch - 1)`. -/
def trainScheduler (tp : TrainParams) (checkpoint : Option ℕ) : MultiStepLR :=
  MultiStepLR.construct tp.epoch_milestones ((startEpochOf checkpoint : ℤ) - 1)

/-- Python evaluation of the guard at line 42:
`'num_repeats' in train_params or train_params['num_repeats'] != 1`, with
short-circuit evaluation.  When the key is absent the first disjunct is
false and evaluating the second raises `KeyError`. -/
def pyNumRepeatsGuard (nr : Option ℕ) : Except TrainError Bool :=
  if nr.isSome then Except.ok true
  else
    match nr with
    | some v => Except.ok (v ≠ 1)
    | none => Except.error TrainError.keyError

/-- Lines 42-43 of `train.py`: evaluate the guard and, when it holds, wrap
the dataset in `DatasetRepeater(dataset, train_params['num_repeats'])`. -/
def effectiveDataset (tp : TrainParams) (dataset : List α) :
    Except TrainError (List α) :=
  match pyNumRepeatsGuard tp.num_repeats with
  | Except.error e => Except.error e
  | Except.ok true => Except.ok (datasetRepeater (tp.num_repeats.getD 1) dataset)
  | Except.ok false => Except.ok dataset

/-- Mutable numeric training state: the parameter-and-moment state `P`
updated in place by the optimizer, the accumulated gradient, and the count
of optimizer steps taken. -/
structure TrainState (P : Type) where
  params : P
  grad : ℚ
  stepCount : ℕ
deriving DecidableEq, Repr

/-- The abstract collaborators of the loop body: the forward pass of the
joint reconstruction model (returning named per-example loss terms and the
auxiliary generated output), autodiff of a scalar loss, and one Adam
parameter update at a given effective learning rate. -/
structure ModelOps (α P G : Type) where
  model : P → List α → List (String × List ℚ) × G
  backward : P → List α → ℚ → ℚ
  optStep : AdamConfig → ℚ → P → ℚ → P

/-- Body of the inner loop of `train` (lines 60-67), for one batch `x`:
run the model, take each named loss term's mean, sum the means into one
scalar, backpropagate it (accumulating into the gradient), apply one
optimizer update at the current effective learning rate, zero the
gradient, and produce the detached per-term means for `logger.log_iter`.
Returns the new state, the `(x, generated)` pair the Python locals retain,
and the logged record. -/
def batchStep (ad : ModelOps α P G) (opt : AdamConfig) (lrNow : ℚ)
    (st : TrainState P) (x : List α) :
    TrainState P × (List α × G) × List (String × ℚ) :=
  let forward := ad.model st.params x
  let losses := forward.1
  let generated := forward.2
  let loss_values := losses.map (fun kv => mean kv.2)
  let loss := loss_values.sum
  let grad1 := st.grad + ad.backward st.params x loss
  let params1 := ad.optStep opt lrNow st.params grad1
  (⟨params1, 0, st.stepCount + 1⟩, (x, generated), losses.map (fun kv => (kv.1, mean kv.2)))

/-- The inner loop of an epoch (lines 59-67): fold `batchStep` over the
epoch's batches, remembering the last `(x, generated)` pair (Python's loop
variables persist after the loop) and collecting the batch trace and the
per-iteration logs. -/
def runBatches (ad : ModelOps α P G) (opt : AdamConfig) (lrNow : ℚ) :
    List (List α) → TrainState P → Option (List α × G) →
    TrainState P × Option (List α × G) × List (List α) × List (List (String × ℚ))
  | [], st, lx => (st, lx, [], [])
  | x :: rest, st, _ =>
    let r := batchStep ad opt lrNow st x
    let rec' := runBatches ad opt lrNow rest r.1 (some r.2.1)
    (rec'.1, rec'.2.1, x :: rec'.2.2.1, r.2.2 :: rec'.2.2.2)

/-- Record the epoch tag of a persisted checkpoint file; checkpoint files
are keyed by epoch, so persisting the same tag twice overwrites one file. -/
def insertTag (e : ℕ) (l : List ℕ) : List ℕ :=
  if e ∈ l then l else l ++ [e]

/-- Accumulated state of the epoch loop of `train` (lines 56-73), also the
result type of `train`: numeric training state, the retained
`(x, generated)` locals, the scheduler, the tags of persisted checkpoints,
the epoch cursor (number of the next epoch to run), the trace of batches
fed to the model, the per-iteration logs, and the pending Python error. -/
structure LoopAcc (α P G : Type) where
  st : TrainState P
  lastX : Option (List α × G)
  scheduler : MultiStepLR
  checkpoints : List ℕ
  cursor : ℕ
  trace : List (List α)
  iterLogs : List (List (String × ℚ))
  error : Option TrainError
deriving DecidableEq, Repr

/-- One iteration of the epoch loop of `train` (lines 59-73), for epoch
number `e` on the `p`-th epoch pass of this process: obtain this pass's
shuffle order from the stream `σ` (the dataloader draws a fresh order per
pass from the ambient RNG), build the full batches, run the inner loop at
the effective learning rate `lr * multiplier`, step the scheduler
(line 69), then log the epoch (lines 70-73).  The logging call reads the
loop variable `x`; if no batch of any pass so far ever bound it, the call
raises a `NameError`, recorded as a pending error.  Otherwise, per the
spec, the logging collaborator persists a checkpoint tagged with the
finished epoch when the advanced cursor is divisible by
`checkpoint_freq`, and the cursor advances to `e + 1`. -/
def epochStep (ad : ModelOps α P G) (opt : AdamConfig) (tp : TrainParams)
    (σ : ℕ → List α → List α) (ds : List α) (e p : ℕ) (acc : LoopAcc α P G) :
    LoopAcc α P G :=
  let order := σ p ds
  let bs := fullBatches tp.batch_size order
  let lrNow := opt.lr * acc.scheduler.lrMultiplier
  let r := runBatches ad opt lrNow bs acc.st acc.lastX
  let sch1 := acc.scheduler.step
  match r.2.1 with
  | none =>
    { acc with
      st := r.1, scheduler := sch1,
      trace := acc.trace ++ r.2.2.1, iterLogs := acc.iterLogs ++ r.2.2.2,
      error := some TrainError.unboundLocal }
  | some xg =>
    let cps :=
      if (e + 1) % tp.checkpoint_freq = 0 then insertTag e acc.checkpoints
      else acc.checkpoints
    { st := r.1, lastX := some xg, scheduler := sch1, checkpoints := cps,
      cursor := e + 1, trace := acc.trace ++ r.2.2.1,
      iterLogs := acc.iterLogs ++ r.2.2.2, error := none }

/-- The epoch loop of `train` (lines 58-73).  The argument list holds the
remaining epoch numbers (`trange(start_epoch, num_epochs)`), and `p`
counts epoch passes of this process.  A pending error aborts the loop (the
Python exception propagates out of the `for`). -/
def runLoop (ad : ModelOps α P G) (opt : AdamConfig) (tp : TrainParams)
    (σ : ℕ → List α → List α) (ds : List α) :
    List ℕ → ℕ → LoopAcc α P G → LoopAcc α P G
  | [], _, acc => acc
  | e :: rest, p, acc =>
    if acc.error.isSome then acc
    else runLoop ad opt tp σ ds rest (p + 1) (epochStep ad opt tp σ ds e p acc)

/-- Modelled from the spec: teardown of the logging collaborator
(`logger.py`, not under `src/`).  On leaving the `with Logger(...)` block
without a pending error, a final checkpoint tagged with the last finished
epoch is persisted, provided at least one epoch-level log happened (the
collaborator only holds components to snapshot after a `log_epoch` call).
Checkpoint files are keyed by epoch, so a tag persisted twice is one
file. -/
def teardown (acc : LoopAcc α P G) : LoopAcc α P G :=
  if acc.error = none ∧ acc.lastX.isSome then
    { acc with checkpoints := insertTag (acc.cursor - 1) acc.checkpoints }
  else acc

/-- The function `train` of `train.py` (lines 27-73).  Inputs: the
`train_params` configuration, the optional checkpoint (carrying the epoch
at which it was taken; the restored module/optimizer numeric state is the
supplied initial `TrainState`), the raw dataset, the stream of per-pass
shuffle orders drawn by the dataloader, and the initial numeric state.
Construct the optimizer (lines 30-32), determine the start epoch
(lines 34-38), construct the scheduler (line 40), evaluate the
`num_repeats` guard and optionally wrap the dataset (lines 42-43; a
missing key aborts with `KeyError` before any epoch runs), then run the
epoch loop; at teardown the logging collaborator persists a final
checkpoint tagged with the last finished epoch, provided an epoch-level
log happened (modelled from the spec, `logger.py` not being under
`src/`). -/
def train (ad : ModelOps α P G) (tp : TrainParams) (checkpoint : Option ℕ)
    (dataset : List α) (σ : ℕ → List α → List α) (init : TrainState P) :
    LoopAcc α P G :=
  let opt := makeOptimizer tp
  let start_epoch := startEpochOf checkpoint
  let scheduler := trainScheduler tp checkpoint
  match effectiveDataset tp dataset with
  | Except.error e =>
    { st := init, lastX := none, scheduler := scheduler, checkpoints := [],
      cursor := start_epoch, trace := [], iterLogs := [], error := some e }
  | Except.ok ds =>
    let epochs := List.range' start_epoch (tp.num_epochs - start_epoch)
    let acc0 : LoopAcc α P G :=
      { st := init, lastX := none, scheduler := scheduler, checkpoints := [],
        cursor := start_epoch, trace := [], iterLogs := [], error := none }
    teardown (runLoop ad opt tp σ ds epochs 0 acc0)

/-- Observable events of the command-line runner (`__main__`,
lines 76-110), in program order. -/
inductive MainEvent where
  | parseArgs
  | configExistsCheck
  | loadConfigYaml
  | constructGenerator
  | constructRegionPredictor
  | constructBGPredictor
  | moveModulesToDevice
  | constructDataset
  | runTrain
deriving DecidableEq, Repr

/-- The command-line runner (lines 76-110): parse arguments, check that the
configuration path exists and raise `FileNotFoundError` otherwise
(lines 85-86), then load the YAML, construct the generator, region
predictor and background predictor, move them to the device, construct the
dataset, and call `train` (all side effects such as log-directory creation
happen inside `train`'s logging collaborator).  Returns the events that
occurred in order, paired with `true` when `FileNotFoundError` was
raised. -/
def mainEvents (configExists : Bool) : List MainEvent × Bool :=
  if configExists then
    ([MainEvent.parseArgs, MainEvent.configExistsCheck, MainEvent.loadConfigYaml,
      MainEvent.constructGenerator, MainEvent.constructRegionPredictor,
      MainEvent.constructBGPredictor, MainEvent.moveModulesToDevice,
      MainEvent.constructDataset, MainEvent.runTrain], false)
  else
    ([MainEvent.parseArgs, MainEvent.configExistsCheck], true)

/-! Concrete instances used to evaluate the embedding on the scenarios the
claims mention. -/

/-- A concrete model for scenario runs: examples are naturals, parameters
and auxiliary outputs are trivial, one constant named loss term per
example, no-op autodiff and optimizer update. -/
def adNat : ModelOps ℕ Unit Unit :=
  { model := fun _ b => ([("reconstruction", b.map (fun _ => (1 : ℚ)))], ())
    backward := fun _ _ _ => 0
    optStep := fun _ _ p _ => p }

/-- A shuffle stream in which every dataloader pass yields the identity
order. -/
def shuffleId : ℕ → List ℕ → List ℕ := fun _ d => d

/-- A shuffle stream in which every dataloader pass yields the reversed
order. -/
def shuffleRev : ℕ → List ℕ → List ℕ := fun _ d => d.reverse

/-- The end-to-end scenario configuration of the spec: one epoch,
checkpoint every epoch, batch size two, `num_repeats = 1`. -/
def tpScenario : TrainParams :=
  { lr := 1 / 100, epoch_milestones := [], num_epochs := 1, batch_size := 2,
    dataloader_workers := 0, checkpoint_freq := 1, num_repeats := some 1,
    use_sync_bn := none, betas := none }

/-- A configuration whose `train_params` mapping omits the optional
`num_repeats` key. -/
def tpNoRepeats : TrainParams := { tpScenario with num_repeats := none }

/-- A configuration with `epoch_milestones = [5, 10]`. -/
def tpMilestones : TrainParams := { tpScenario with epoch_milestones := [5, 10] }

/-- A configuration whose batch size exceeds the dataset size used with
it. -/
def tpSmallData : TrainParams := { tpScenario with batch_size := 5 }

/-- A two-epoch configuration with batch size one, used for the resume
scenario. -/
def tpTwoEpochs : TrainParams :=
  { tpScenario with num_epochs := 2, batch_size := 1, checkpoint_freq := 10 }

/-- A configuration carrying one beta-coefficients entry. -/
def tpBetasA : TrainParams := { tpScenario with betas := some (9 / 10, 999 / 1000) }

/-- The same configuration as `tpBetasA` except for the beta-coefficients
entry. -/
def tpBetasB : TrainParams := { tpScenario with betas := some (1 / 10, 1 / 2) }

/-- The initial loop accumulator of a fresh (no-checkpoint) run of `train`,
as built at lines 34-58: numeric state `init`, no loop variable bound yet,
the scheduler of a fresh run, no checkpoints, cursor at epoch 0. -/
def freshLoopAcc (tp : TrainParams) (init : TrainState P) : LoopAcc α P G :=
  { st := init, lastX := none, scheduler := trainScheduler tp none,
    checkpoints := [], cursor := 0, trace := [], iterLogs := [], error := none }

/-- The first `E` epochs of an uninterrupted run of `train` on the
effective dataset `dsE`: the point at which a checkpoint for resumption at
epoch `E` is taken. -/
def prefixLoop (ad : ModelOps α P G) (tp : TrainParams)
    (σ : ℕ → List α → List α) (dsE : List α) (init : TrainState P) (E : ℕ) :
    LoopAcc α P G :=
  runLoop ad (makeOptimizer tp) tp σ dsE (List.range' 0 E) 0 (freshLoopAcc tp init)

/-- The initial loop accumulator of a fresh (no-checkpoint) scenario run. -/
def freshAcc : LoopAcc ℕ Unit Unit :=
  { st := ⟨(), 0, 0⟩, lastX := none, scheduler := trainScheduler tpTwoEpochs none,
    checkpoints := [], cursor := 0, trace := [], iterLogs := [], error := none }

/-- The state of the uninterrupted two-epoch scenario run after its first
epoch: the state a checkpoint restored for resumption at epoch 1 holds. -/
def prefixRun : LoopAcc ℕ Unit Unit :=
  runLoop adNat (makeOptimizer tpTwoEpochs) tpTwoEpochs shuffleId
    (datasetRepeater 1 [0, 1]) (List.range' 0 1) 0 freshAcc

/-! Helper lemmas about the dataloader chunking. -/

theorem fullBatchesAux_length (B : ℕ) :
    ∀ (fuel : ℕ) (xs : List α), xs.length ≤ fuel →
      (fullBatchesAux B fuel xs).length = xs.length / B := by
  intro fuel
  induction fuel with
  | zero =>
    intro xs h
    have h0 : xs.length = 0 := Nat.le_zero.mp h
    simp [fullBatchesAux, h0]
  | succ fuel ih =>
    intro xs h
    by_cases hc : 0 < B ∧ B ≤ xs.length
    · obtain ⟨hB, hBle⟩ := hc
      rw [fullBatchesAux, if_pos ⟨hB, hBle⟩, List.length_cons,
        ih _ (by rw [List.length_drop]; omega), List.length_drop,
        Nat.div_eq xs.length B, if_pos ⟨hB, hBle⟩]
    · rw [fullBatchesAux, if_neg hc, Nat.div_eq xs.length B, if_neg hc]
      rfl

theorem fullBatchesAux_mem (B : ℕ) :
    ∀ (fuel : ℕ) (xs : List α), xs.length ≤ fuel →
      ∀ b ∈ fullBatchesAux B fuel xs, b.length = B := by
  intro fuel
  induction fuel with
  | zero =>
    intro xs _ b hb
    simp [fullBatchesAux] at hb
  | succ fuel ih =>
    intro xs h b hb
    by_cases hc : 0 < B ∧ B ≤ xs.length
    · obtain ⟨hB, hBle⟩ := hc
      rw [fullBatchesAux, if_pos ⟨hB, hBle⟩] at hb
      rcases List.mem_cons.mp hb with hb1 | hb2
      · rw [hb1, List.length_take]
        omega
      · exact ih _ (by rw [List.length_drop]; omega) b hb2
    · rw [fullBatchesAux, if_neg hc] at hb
      simp at hb

theorem fullBatchesAux_flatten (B : ℕ) :
    ∀ (fuel : ℕ) (xs : List α), xs.length ≤ fuel →
      (fullBatchesAux B fuel xs).flatten = xs.take (xs.length / B * B) := by
  intro fuel
  induction fuel with
  | zero =>
    intro xs h
    have h0 : xs.length = 0 := Nat.le_zero.mp h
    simp [fullBatchesAux, h0]
  | succ fuel ih =>
    intro xs h
    by_cases hc : 0 < B ∧ B ≤ xs.length
    · obtain ⟨hB, hBle⟩ := hc
      rw [fullBatchesAux, if_pos ⟨hB, hBle⟩, List.flatten_cons,
        ih _ (by rw [List.length_drop]; omega), List.length_drop,
        ← List.take_add, Nat.div_eq xs.length B, if_pos ⟨hB, hBle⟩]
      have harith : B + (xs.length - B) / B * B = ((xs.length - B) / B + 1) * B := by
        ring
      rw [harith]
    · rw [fullBatchesAux, if_neg hc, Nat.div_eq xs.length B, if_neg hc]
      simp

theorem fullBatches_length (B : ℕ) (xs : List α) :
    (fullBatches B xs).length = xs.length / B :=
  fullBatchesAux_length B xs.length xs le_rfl

theorem fullBatches_mem (B : ℕ) (xs : List α) :
    ∀ b ∈ fullBatches B xs, b.length = B :=
  fullBatchesAux_mem B xs.length xs le_rfl

theorem fullBatches_flatten (B : ℕ) (xs : List α) :
    (fullBatches B xs).flatten = xs.take (xs.length / B * B) :=
  fullBatchesAux_flatten B xs.length xs le_rfl

theorem fullBatches_eq_nil (B : ℕ) (xs : List α) (h : xs.length < B) :
    fullBatches B xs = [] := by
  unfold fullBatches
  cases hf : xs.length with
  | zero => rfl
  | succ f =>
    rw [fullBatchesAux, if_neg]
    omega

theorem fullBatches_ne_nil (B : ℕ) (xs : List α) (hB : 0 < B)
    (hle : B ≤ xs.length) : fullBatches B xs ≠ [] := by
  unfold fullBatches
  cases hf : xs.length with
  | zero => omega
  | succ f =>
    rw [fullBatchesAux, if_pos ⟨hB, by omega⟩]
    simp

/-! Helper lemmas about the inner batch loop. -/

theorem runBatches_stepCount (ad : ModelOps α P G) (opt : AdamConfig) (lrNow : ℚ) :
    ∀ (bs : List (List α)) (st : TrainState P) (lx : Option (List α × G)),
      (runBatches ad opt lrNow bs st lx).1.stepCount = st.stepCount + bs.length := by
  intro bs
  induction bs with
  | nil => intro st lx; simp [runBatches]
  | cons x rest ih =>
    intro st lx
    rw [runBatches]
    simp only [List.length_cons]
    rw [ih]
    simp [batchStep]
    omega

theorem runBatches_trace (ad : ModelOps α P G) (opt : AdamConfig) (lrNow : ℚ) :
    ∀ (bs : List (List α)) (st : TrainState P) (lx : Option (List α × G)),
      (runBatches ad opt lrNow bs st lx).2.2.1 = bs := by
  intro bs
  induction bs with
  | nil => intro st lx; rfl
  | cons x rest ih =>
    intro st lx
    rw [runBatches]
    simp only
    rw [ih]

theorem runBatches_cons_lastX (ad : ModelOps α P G) (opt : AdamConfig) (lrNow : ℚ) :
    ∀ (bs : List (List α)) (x : List α) (st : TrainState P) (lx : Option (List α × G)),
      (runBatches ad opt lrNow (x :: bs) st lx).2.1.isSome := by
  intro bs
  induction bs with
  | nil => intro x st lx; rfl
  | cons y rest ih =>
    intro x st lx
    rw [runBatches]
    exact ih y (batchStep ad opt lrNow st x).1 (some (batchStep ad opt lrNow st x).2.1)

theorem runBatches_cons_lx (ad : ModelOps α P G) (opt : AdamConfig) (lrNow : ℚ)
    (x : List α) (bs : List (List α)) (st : TrainState P)
    (lx₁ lx₂ : Option (List α × G)) :
    runBatches ad opt lrNow (x :: bs) st lx₁ = runBatches ad opt lrNow (x :: bs) st lx₂ := rfl

/-! Helper lemmas about the scheduler. -/

theorem MultiStepLR.stepN_eq :
    ∀ (k : ℕ) (s : MultiStepLR),
      s.stepN k = ⟨s.milestones, s.gamma, s.lastEpoch + k⟩ := by
  intro k
  induction k with
  | zero => intro s; cases s; simp [MultiStepLR.stepN]
  | succ k ih =>
    intro s
    rw [MultiStepLR.stepN, ih]
    simp [MultiStepLR.step]
    omega

theorem trainScheduler_none (tp : TrainParams) :
    trainScheduler tp none = ⟨tp.epoch_milestones, 1 / 10, 0⟩ := by
  simp [trainScheduler, MultiStepLR.construct, MultiStepLR.step, startEpochOf]

theorem trainScheduler_some (tp : TrainParams) (E : ℕ) :
    trainScheduler tp (some E) = ⟨tp.epoch_milestones, 1 / 10, E⟩ := by
  simp [trainScheduler, MultiStepLR.construct, MultiStepLR.step, startEpochOf]

/-! Helper lemmas about the epoch loop. -/

theorem runLoop_error_absorb (ad : ModelOps α P G) (opt : AdamConfig)
    (tp : TrainParams) (σ : ℕ → List α → List α) (ds : List α) :
    ∀ (l : List ℕ) (p : ℕ) (acc : LoopAcc α P G), acc.error.isSome →
      runLoop ad opt tp σ ds l p acc = acc := by
  intro l
  induction l with
  | nil => intro p acc _; rfl
  | cons e t _ => intro p acc h; rw [runLoop, if_pos h]

theorem runLoop_append (ad : ModelOps α P G) (opt : AdamConfig)
    (tp : TrainParams) (σ : ℕ → List α → List α) (ds : List α) :
    ∀ (l₁ l₂ : List ℕ) (p : ℕ) (acc : LoopAcc α P G),
      runLoop ad opt tp σ ds (l₁ ++ l₂) p acc
        = runLoop ad opt tp σ ds l₂ (p + l₁.length) (runLoop ad opt tp σ ds l₁ p acc) := by
  intro l₁
  induction l₁ with
  | nil => intro l₂ p acc; simp [runLoop]
  | cons e t ih =>
    intro l₂ p acc
    by_cases h : acc.error.isSome
    · rw [List.cons_append, runLoop, if_pos h, runLoop, if_pos h,
        runLoop_error_absorb ad opt tp σ ds l₂ (p + (e :: t).length) acc h]
    · rw [List.cons_append, runLoop, if_neg h, runLoop, if_neg h, ih]
      have harith : p + 1 + t.length = p + (e :: t).length := by
        simp [List.length_cons]; omega
      rw [harith]

theorem epochStep_shuffle (ad : ModelOps α P G) (opt : AdamConfig)
    (tp : TrainParams) (σ σ' : ℕ → List α → List α) (ds : List α)
    (e p p' : ℕ) (acc : LoopAcc α P G) (h : σ' p' = σ p) :
    epochStep ad opt tp σ' ds e p' acc = epochStep ad opt tp σ ds e p acc := by
  unfold epochStep
  rw [h]

theorem runLoop_shift (ad : ModelOps α P G) (opt : AdamConfig)
    (tp : TrainParams) (σ σ' : ℕ → List α → List α) (ds : List α) :
    ∀ (l : List ℕ) (p p' : ℕ) (acc : LoopAcc α P G),
      (∀ i, σ' (p' + i) = σ (p + i)) →
      runLoop ad opt tp σ' ds l p' acc = runLoop ad opt tp σ ds l p acc := by
  intro l
  induction l with
  | nil => intro p p' acc _; rfl
  | cons e t ih =>
    intro p p' acc h
    by_cases herr : acc.error.isSome
    · rw [runLoop, if_pos herr, runLoop, if_pos herr]
    · rw [runLoop, if_neg herr, runLoop, if_neg herr,
        epochStep_shuffle ad opt tp σ σ' ds e p p' acc (by simpa using h 0),
        ih (p + 1) (p' + 1) _ (fun i => by
          have hh := h (i + 1)
          rw [(by omega : p' + 1 + i = p' + (i + 1)),
            (by omega : p + 1 + i = p + (i + 1))]
          exact hh)]

theorem epochStep_fields (ad : ModelOps α P G) (opt : AdamConfig)
    (tp : TrainParams) (σ : ℕ → List α → List α) (ds : List α)
    (e p : ℕ) (acc : LoopAcc α P G)
    (hB : 0 < tp.batch_size) (hlen : tp.batch_size ≤ (σ p ds).length) :
    (epochStep ad opt tp σ ds e p acc).error = none ∧
    (epochStep ad opt tp σ ds e p acc).scheduler = acc.scheduler.step ∧
    (epochStep ad opt tp σ ds e p acc).cursor = e + 1 ∧
    (epochStep ad opt tp σ ds e p acc).lastX.isSome ∧
    (epochStep ad opt tp σ ds e p acc).st
      = (runBatches ad opt (opt.lr * acc.scheduler.lrMultiplier)
          (fullBatches tp.batch_size (σ p ds)) acc.st acc.lastX).1 ∧
    (epochStep ad opt tp σ ds e p acc).trace
      = acc.trace ++ fullBatches tp.batch_size (σ p ds) ∧
    (epochStep ad opt tp σ ds e p acc).iterLogs
      = acc.iterLogs ++ (runBatches ad opt (opt.lr * acc.scheduler.lrMultiplier)
          (fullBatches tp.batch_size (σ p ds)) acc.st acc.lastX).2.2.2 := by
  obtain ⟨x, t, hbs⟩ :=
    List.exists_cons_of_ne_nil (fullBatches_ne_nil tp.batch_size (σ p ds) hB hlen)
  have hsome :=
    runBatches_cons_lastX ad opt (opt.lr * acc.scheduler.lrMultiplier) t x acc.st acc.lastX
  obtain ⟨xg, hxg⟩ := Option.isSome_iff_exists.mp hsome
  simp only [epochStep]
  rw [hbs, hxg]
  simp [runBatches_trace, hbs]

theorem teardown_fields (acc : LoopAcc α P G) :
    (teardown acc).st = acc.st ∧ (teardown acc).trace = acc.trace ∧
    (teardown acc).cursor = acc.cursor ∧ (teardown acc).error = acc.error ∧
    (teardown acc).iterLogs = acc.iterLogs ∧ (teardown acc).lastX = acc.lastX ∧
    (teardown acc).scheduler = acc.scheduler := by
  unfold teardown
  split
  · exact ⟨rfl, rfl, rfl, rfl, rfl, rfl, rfl⟩
  · exact ⟨rfl, rfl, rfl, rfl, rfl, rfl, rfl⟩

theorem runLoop_range'_facts (ad : ModelOps α P G) (opt : AdamConfig)
    (tp : TrainParams) (σ : ℕ → List α → List α) (ds : List α)
    (hB : 0 < tp.batch_size) (hlen : ∀ p, tp.batch_size ≤ (σ p ds).length) :
    ∀ (k s p : ℕ) (acc : LoopAcc α P G), acc.error = none →
      (runLoop ad opt tp σ ds (List.range' s k) p acc).error = none ∧
      (runLoop ad opt tp σ ds (List.range' s k) p acc).scheduler
        = acc.scheduler.stepN k ∧
      (k = 0 → runLoop ad opt tp σ ds (List.range' s k) p acc = acc) ∧
      (0 < k →
        (runLoop ad opt tp σ ds (List.range' s k) p acc).cursor = s + k ∧
        (runLoop ad opt tp σ ds (List.range' s k) p acc).lastX.isSome) := by
  intro k
  induction k with
  | zero =>
    intro s p acc hacc
    exact ⟨hacc, rfl, fun _ => rfl, fun h => absurd h (by omega)⟩
  | succ k ih =>
    intro s p acc hacc
    have hfields := epochStep_fields ad opt tp σ ds s p acc hB (hlen p)
    have hcons : List.range' s (k + 1) = s :: List.range' (s + 1) k :=
      List.range'_succ s k 1
    have herr' : acc.error.isSome = false := by rw [hacc]; rfl
    rw [hcons, runLoop, if_neg (by rw [herr']; exact Bool.false_ne_true)]
    have ihs := ih (s + 1) (p + 1) (epochStep ad opt tp σ ds s p acc) hfields.1
    refine ⟨ihs.1, ?_, fun h => absurd h (by omega), fun _ => ?_⟩
    · rw [ihs.2.1, hfields.2.1]
      rfl
    · rcases Nat.eq_zero_or_pos k with hk | hk
      · subst hk
        have hstop := ihs.2.2.1 rfl
        rw [hstop]
        exact ⟨by rw [hfields.2.2.1], hfields.2.2.2.1⟩
      · obtain ⟨hcur, hlx⟩ := ihs.2.2.2 hk
        exact ⟨by rw [hcur]; omega, hlx⟩

theorem runLoop_congr (ad : ModelOps α P G) (opt : AdamConfig)
    (tp : TrainParams) (σ : ℕ → List α → List α) (ds : List α)
    (hB : 0 < tp.batch_size) (hlen : ∀ p, tp.batch_size ≤ (σ p ds).length) :
    ∀ (l : List ℕ) (p : ℕ) (acc₁ acc₂ : LoopAcc α P G),
      acc₁.st = acc₂.st → acc₁.scheduler = acc₂.scheduler →
      acc₁.cursor = acc₂.cursor → acc₁.error = none → acc₂.error = none →
      (runLoop ad opt tp σ ds l p acc₁).st = (runLoop ad opt tp σ ds l p acc₂).st ∧
      (runLoop ad opt tp σ ds l p acc₁).scheduler
        = (runLoop ad opt tp σ ds l p acc₂).scheduler ∧
      (runLoop ad opt tp σ ds l p acc₁).cursor
        = (runLoop ad opt tp σ ds l p acc₂).cursor ∧
      (runLoop ad opt tp σ ds l p acc₁).error
        = (runLoop ad opt tp σ ds l p acc₂).error ∧
      ∃ T L,
        (runLoop ad opt tp σ ds l p acc₁).trace = acc₁.trace ++ T ∧
        (runLoop ad opt tp σ ds l p acc₂).trace = acc₂.trace ++ T ∧
        (runLoop ad opt tp σ ds l p acc₁).iterLogs = acc₁.iterLogs ++ L ∧
        (runLoop ad opt tp σ ds l p acc₂).iterLogs = acc₂.iterLogs ++ L := by
  intro l
  induction l with
  | nil =>
    intro p acc₁ acc₂ hst hsch hcur herr₁ herr₂
    simp only [runLoop]
    exact ⟨hst, hsch, hcur, by rw [herr₁, herr₂], [], [], by simp, by simp, by simp, by simp⟩
  | cons e t ih =>
    intro p acc₁ acc₂ hst hsch hcur herr₁ herr₂
    have hb₁ : acc₁.error.isSome = false := by rw [herr₁]; rfl
    have hb₂ : acc₂.error.isSome = false := by rw [herr₂]; rfl
    rw [runLoop, if_neg (by rw [hb₁]; exact Bool.false_ne_true),
      runLoop, if_neg (by rw [hb₂]; exact Bool.false_ne_true)]
    obtain ⟨he₁, hs₁, hc₁, hx₁, hst₁, htr₁, hlg₁⟩ :=
      epochStep_fields ad opt tp σ ds e p acc₁ hB (hlen p)
    obtain ⟨he₂, hs₂, hc₂, hx₂, hst₂, htr₂, hlg₂⟩ :=
      epochStep_fields ad opt tp σ ds e p acc₂ hB (hlen p)
    obtain ⟨x, t', hbs⟩ :=
      List.exists_cons_of_ne_nil (fullBatches_ne_nil tp.batch_size (σ p ds) hB (hlen p))
    have hrb :
        runBatches ad opt (opt.lr * acc₁.scheduler.lrMultiplier)
          (fullBatches tp.batch_size (σ p ds)) acc₁.st acc₁.lastX
          = runBatches ad opt (opt.lr * acc₂.scheduler.lrMultiplier)
            (fullBatches tp.batch_size (σ p ds)) acc₂.st acc₂.lastX := by
      rw [hst, hsch, hbs]
      exact runBatches_cons_lx ad opt (opt.lr * acc₂.scheduler.lrMultiplier)
        x t' acc₂.st acc₁.lastX acc₂.lastX
    obtain ⟨ihst, ihsch, ihcur, iherr, T', L', ht₁, ht₂, hl₁, hl₂⟩ :=
      ih (p + 1) (epochStep ad opt tp σ ds e p acc₁) (epochStep ad opt tp σ ds e p acc₂)
        (by rw [hst₁, hst₂, hrb]) (by rw [hs₁, hs₂, hsch]) (by rw [hc₁, hc₂]) he₁ he₂
    refine ⟨ihst, ihsch, ihcur, iherr,
      fullBatches tp.batch_size (σ p ds) ++ T',
      (runBatches ad opt (opt.lr * acc₁.scheduler.lrMultiplier)
        (fullBatches tp.batch_size (σ p ds)) acc₁.st acc₁.lastX).2.2.2 ++ L',
      ?_, ?_, ?_, ?_⟩
    · rw [ht₁, htr₁, List.append_assoc]
    · rw [ht₂, htr₂, List.append_assoc]
    · rw [hl₁, hlg₁, List.append_assoc]
    · rw [hl₂, hlg₂, ← hrb, List.append_assoc]

theorem train_eq_ok (ad : ModelOps α P G) (tp : TrainParams) (cp : Option ℕ)
    (ds dsE : List α) (σ : ℕ → List α → List α) (init : TrainState P)
    (heff : effectiveDataset tp ds = Except.ok dsE) :
    train ad tp cp ds σ init
      = teardown (runLoop ad (makeOptimizer tp) tp σ dsE
          (List.range' (startEpochOf cp) (tp.num_epochs - startEpochOf cp)) 0
          { st := init, lastX := none, scheduler := trainScheduler tp cp,
            checkpoints := [], cursor := startEpochOf cp, trace := [],
            iterLogs := [], error := none }) := by
  simp only [train]
  rw [heff]

/-! Claim theorems. -/

/-- C1: the claim says a configuration omitting the optional `num_repeats`
key trains on the unwrapped dataset without error, and `num_repeats = 1`
also leaves the dataset unwrapped.  The guard at line 42 uses `or` where
`and` was intended: with the key absent, the second disjunct indexes the
missing key and `train` aborts with a `KeyError` before any batch is
processed; with the key present and equal to 1, the guard is already true
and the dataset is wrapped in a `DatasetRepeater` anyway.  This theorem
evaluates the embedded code at both inputs. -/
theorem numRepeats_guard_behavior :
    (train adNat tpNoRepeats none [0, 1, 2, 3] shuffleId ⟨(), 0, 0⟩).error
      = some TrainError.keyError ∧
    (train adNat tpNoRepeats none [0, 1, 2, 3] shuffleId ⟨(), 0, 0⟩).st.stepCount = 0 ∧
    (train adNat tpNoRepeats none [0, 1, 2, 3] shuffleId ⟨(), 0, 0⟩).trace = [] ∧
    pyNumRepeatsGuard (some 1) = Except.ok true ∧
    effectiveDataset tpScenario [0, 1, 2, 3]
      = Except.ok (datasetRepeater 1 [0, 1, 2, 3]) :=
  ⟨by decide, by decide, by decide, rfl, rfl⟩

/-- C4 counterexample: two configurations that differ only in their
beta-coefficients entry produce identical Adam optimizers, because line 32
passes the literal `betas=(0.5, 0.999)`; the claim that they would yield
optimizers with different betas is false. -/
theorem betas_not_configured :
    tpBetasA.lr = tpBetasB.lr ∧
    tpBetasA.epoch_milestones = tpBetasB.epoch_milestones ∧
    tpBetasA.num_epochs = tpBetasB.num_epochs ∧
    tpBetasA.batch_size = tpBetasB.batch_size ∧
    tpBetasA.dataloader_workers = tpBetasB.dataloader_workers ∧
    tpBetasA.checkpoint_freq = tpBetasB.checkpoint_freq ∧
    tpBetasA.num_repeats = tpBetasB.num_repeats ∧
    tpBetasA.use_sync_bn = tpBetasB.use_sync_bn ∧
    tpBetasA.betas ≠ tpBetasB.betas ∧
    makeOptimizer tpBetasA = makeOptimizer tpBetasB :=
  ⟨rfl, rfl, rfl, rfl, rfl, rfl, rfl, rfl,
    by simp [tpBetasA, tpBetasB]; norm_num, rfl⟩

/-- C4 amended: the single Adam optimizer constructed by `train` uses the
configured learning rate, while its beta coefficients are the fixed
literal `(0.5, 0.999)` regardless of the configuration. -/
theorem optimizer_hyperparameters (tp : TrainParams) :
    (makeOptimizer tp).lr = tp.lr ∧
    (makeOptimizer tp).beta1 = 1 / 2 ∧
    (makeOptimizer tp).beta2 = 999 / 1000 :=
  ⟨rfl, rfl, rfl⟩

/-- C5: for every batch processed inside an epoch, the loop body reduces
the loss bundle to the single scalar that is the sum over named loss terms
of that term's mean, backpropagates that scalar into the accumulated
gradient, applies exactly one optimizer update with it, clears the
gradient before the next batch, and emits the detached per-term means;
over a whole epoch pass the optimizer steps exactly once per batch. -/
theorem perBatch_step_semantics (ad : ModelOps α P G) (opt : AdamConfig)
    (lrNow : ℚ) (st : TrainState P) (x : List α) (bs : List (List α))
    (lx : Option (List α × G)) :
    (batchStep ad opt lrNow st x).1.stepCount = st.stepCount + 1 ∧
    (batchStep ad opt lrNow st x).1.grad = 0 ∧
    (batchStep ad opt lrNow st x).1.params
      = ad.optStep opt lrNow st.params
          (st.grad + ad.backward st.params x
            (((ad.model st.params x).1.map (fun kv => mean kv.2)).sum)) ∧
    (batchStep ad opt lrNow st x).2.2
      = (ad.model st.params x).1.map (fun kv => (kv.1, mean kv.2)) ∧
    (runBatches ad opt lrNow bs st lx).1.stepCount = st.stepCount + bs.length :=
  ⟨rfl, rfl, rfl, rfl, runBatches_stepCount ad opt lrNow bs st lx⟩

/-- C6: drop-last invariant of the dataloader pass: a (shuffled) epoch
ordering of `D` examples with batch size `B` yields exactly `D / B`
(floor) batches, every batch has exactly `B` examples (so none smaller
than `B` is ever produced), the processed examples are exactly the first
`D / B * B` of the ordering (trailing examples are excluded entirely,
never padded or processed short), and the inner loop feeds exactly these
batches to the joint reconstruction step. -/
theorem dropLast_invariant (ad : ModelOps α P G) (opt : AdamConfig)
    (lrNow : ℚ) (B : ℕ) (xs : List α) (st : TrainState P)
    (lx : Option (List α × G)) :
    (fullBatches B xs).length = xs.length / B ∧
    (∀ b ∈ fullBatches B xs, b.length = B) ∧
    (fullBatches B xs).flatten = xs.take (xs.length / B * B) ∧
    (runBatches ad opt lrNow (fullBatches B xs) st lx).2.2.1 = fullBatches B xs :=
  ⟨fullBatches_length B xs, fullBatches_mem B xs, fullBatches_flatten B xs,
    runBatches_trace ad opt lrNow (fullBatches B xs) st lx⟩

/-- C7: the learning-rate multiplier is `0.1 ^ k` once the epoch counter
has passed `k` of the configured milestones; and resuming from a
checkpoint tagged epoch 5 with `epoch_milestones = [5, 10]` gives the
scheduler an active decay count of 1 (multiplier `0.1`) on the step
immediately following the restore (the constructor's internal step from
`last_epoch = 4`). -/
theorem milestone_decay (tp : TrainParams) (n : ℕ)
    (h : tp.epoch_milestones = [5, 10]) :
    ((trainScheduler tp none).stepN n).lrMultiplier
      = (1 / 10 : ℚ) ^ (tp.epoch_milestones.countP (fun m => m ≤ n)) ∧
    (trainScheduler tp (some 5)).decayCount = 1 ∧
    (trainScheduler tp (some 5)).lrMultiplier = 1 / 10 := by
  refine ⟨?_, ?_, ?_⟩
  · rw [trainScheduler_none, MultiStepLR.stepN_eq]
    simp only [MultiStepLR.lrMultiplier, MultiStepLR.decayCount]
    congr 1
    apply List.countP_congr
    intro m _
    constructor <;> intro hm <;> simp only [decide_eq_true_eq] at hm ⊢ <;> omega
  · rw [trainScheduler_some, h]
    decide
  · rw [trainScheduler_some, h]
    have hd : MultiStepLR.decayCount ⟨[5, 10], 1 / 10, (5 : ℕ)⟩ = 1 := by decide
    simp only [MultiStepLR.lrMultiplier, hd, pow_one]

/-- C7 witness: the theorem applied at the concrete configuration with
`epoch_milestones = [5, 10]` and counter value 7. -/
theorem milestone_decay_witness :
    tpMilestones.epoch_milestones = [5, 10] ∧
    (((trainScheduler tpMilestones none).stepN 7).lrMultiplier
        = (1 / 10 : ℚ) ^ (tpMilestones.epoch_milestones.countP (fun m => m ≤ 7)) ∧
      (trainScheduler tpMilestones (some 5)).decayCount = 1 ∧
      (trainScheduler tpMilestones (some 5)).lrMultiplier = 1 / 10) :=
  ⟨rfl, milestone_decay tpMilestones 7 rfl⟩

/-- C8: the end-to-end scenario: a fresh run with `num_epochs = 1`,
`checkpoint_freq = 1`, a 4-example dataset, `batch_size = 2` and
`num_repeats = 1` performs exactly 2 optimizer steps, persists exactly one
checkpoint tagged epoch 0, finishes with the epoch cursor at 1, and raises
no error. -/
theorem endToEnd_scenario :
    (train adNat tpScenario none [0, 1, 2, 3] shuffleId ⟨(), 0, 0⟩).st.stepCount = 2 ∧
    (train adNat tpScenario none [0, 1, 2, 3] shuffleId ⟨(), 0, 0⟩).checkpoints = [0] ∧
    (train adNat tpScenario none [0, 1, 2, 3] shuffleId ⟨(), 0, 0⟩).cursor = 1 ∧
    (train adNat tpScenario none [0, 1, 2, 3] shuffleId ⟨(), 0, 0⟩).error = none := by
  decide

/-- C9: when the configuration path does not exist, the runner raises a
file-not-found error right after the existence check: none of the three
modules is constructed, no dataset is built, and `train` (inside which all
side effects such as log-directory creation happen) is never invoked. -/
theorem failFast_missing_config :
    (mainEvents false).2 = true ∧
    MainEvent.constructGenerator ∉ (mainEvents false).1 ∧
    MainEvent.constructRegionPredictor ∉ (mainEvents false).1 ∧
    MainEvent.constructBGPredictor ∉ (mainEvents false).1 ∧
    MainEvent.constructDataset ∉ (mainEvents false).1 ∧
    MainEvent.runTrain ∉ (mainEvents false).1 ∧
    (mainEvents false).1 = [MainEvent.parseArgs, MainEvent.configExistsCheck] := by
  decide

/-- C2: resume reproduces the scheduler trajectory of an uninterrupted
run: with a checkpoint taken at epoch `E`, the restored epoch becomes the
start epoch, the scheduler is constructed from `last_epoch = E - 1` so
that its constructor-internal step lands the epoch counter exactly on
`E`, and the learning-rate multiplier over the remaining epochs
`E .. num_epochs - 1` agrees pointwise with the multiplier the fresh-run
scheduler has at the same epoch counter: the multiplier sequence is a pure
function of the epoch number, independent of the restart. -/
theorem resume_scheduler_trajectory (tp : TrainParams) (E : ℕ) :
    startEpochOf (some E) = E ∧
    (trainScheduler tp (some E)).lastEpoch = (E : ℤ) ∧
    (List.range' E (tp.num_epochs - E)).map
        (fun e => ((trainScheduler tp (some E)).stepN (e - E)).lrMultiplier)
      = (List.range' E (tp.num_epochs - E)).map
        (fun e => ((trainScheduler tp none).stepN e).lrMultiplier) := by
  refine ⟨rfl, ?_, ?_⟩
  · rw [trainScheduler_some]
  · apply List.map_congr_left
    intro e he
    have hE : E ≤ e := (List.mem_range'_1.mp he).1
    rw [trainScheduler_some, trainScheduler_none, MultiStepLR.stepN_eq,
      MultiStepLR.stepN_eq]
    have harith : ((E : ℤ) + ↑(e - E)) = 0 + ↑e := by omega
    rw [harith]

theorem epochStep_empty (ad : ModelOps α P G) (opt : AdamConfig)
    (tp : TrainParams) (σ : ℕ → List α → List α) (ds : List α)
    (e p : ℕ) (acc : LoopAcc α P G)
    (h : (σ p ds).length < tp.batch_size) (hx : acc.lastX = none) :
    epochStep ad opt tp σ ds e p acc
      = { acc with scheduler := acc.scheduler.step,
                   error := some TrainError.unboundLocal } := by
  simp only [epochStep]
  rw [fullBatches_eq_nil tp.batch_size (σ p ds) h]
  simp [runBatches, hx, MultiStepLR.step]

/-- C10: the epoch-boundary logging call reads the inner loop's variables,
so when the effective dataset is smaller than the batch size (the
dataloader yields zero batches under drop-last), a run that enters the
epoch loop aborts with the unbound-variable error at the first epoch
boundary instead of logging: the numeric state is untouched (no optimizer
step occurs), and no checkpoint, iteration log, or batch trace is
produced. -/
theorem empty_epoch_unbound (ad : ModelOps α P G) (tp : TrainParams)
    (cp : Option ℕ) (ds dsE : List α) (σ : ℕ → List α → List α)
    (init : TrainState P)
    (heff : effectiveDataset tp ds = Except.ok dsE)
    (hlen : ∀ p, (σ p dsE).length < tp.batch_size)
    (hrun : startEpochOf cp < tp.num_epochs) :
    (train ad tp cp ds σ init).error = some TrainError.unboundLocal ∧
    (train ad tp cp ds σ init).st = init ∧
    (train ad tp cp ds σ init).checkpoints = [] ∧
    (train ad tp cp ds σ init).iterLogs = [] ∧
    (train ad tp cp ds σ init).trace = [] := by
  rw [train_eq_ok ad tp cp ds dsE σ init heff]
  have hsplit : tp.num_epochs - startEpochOf cp
      = (tp.num_epochs - startEpochOf cp - 1) + 1 := by omega
  rw [hsplit, List.range'_succ, runLoop, if_neg (by exact Bool.false_ne_true),
    epochStep_empty ad (makeOptimizer tp) tp σ dsE (startEpochOf cp) 0 _ (hlen 0) rfl,
    runLoop_error_absorb ad (makeOptimizer tp) tp σ dsE _ _ _ (by rfl)]
  unfold teardown
  rw [if_neg (by simp)]
  exact ⟨rfl, rfl, rfl, rfl, rfl⟩

/-- C10 witness: the theorem applied to a concrete one-example dataset and
batch size 5 (so zero full batches per epoch): the run aborts with the
unbound-variable error and performs no optimizer step. -/
theorem empty_epoch_unbound_witness :
    effectiveDataset tpSmallData [0] = Except.ok (datasetRepeater 1 [0]) ∧
    (∀ p, (shuffleId p (datasetRepeater 1 [0])).length < tpSmallData.batch_size) ∧
    startEpochOf none < tpSmallData.num_epochs ∧
    (train adNat tpSmallData none [0] shuffleId ⟨(), 0, 0⟩).error
      = some TrainError.unboundLocal ∧
    (train adNat tpSmallData none [0] shuffleId ⟨(), 0, 0⟩).st = ⟨(), 0, 0⟩ :=
  ⟨rfl,
    fun p => by
      show (datasetRepeater 1 [0] : List ℕ).length < tpSmallData.batch_size
      decide,
    by decide,
    (empty_epoch_unbound adNat tpSmallData none [0] (datasetRepeater 1 [0])
      shuffleId ⟨(), 0, 0⟩ rfl
      (fun p => by
        show (datasetRepeater 1 [0] : List ℕ).length < tpSmallData.batch_size
        decide)
      (by decide)).1,
    (empty_epoch_unbound adNat tpSmallData none [0] (datasetRepeater 1 [0])
      shuffleId ⟨(), 0, 0⟩ rfl
      (fun p => by
        show (datasetRepeater 1 [0] : List ℕ).length < tpSmallData.batch_size
        decide)
      (by decide)).2.1⟩

/-- C3 counterexample: a fixed configuration, dataset, and initial state,
interrupted after epoch 0 and resumed at epoch 1 from the exact state the
uninterrupted run had there.  The dataloader shuffles with ambient,
unseeded RNG; here the uninterrupted process happens to draw the identity
order for epoch 1 while the restarted process draws the reversed order, so
the sequence of batches fed to the joint reconstruction step is not
reproduced: the claimed equality of batch sequences is false. -/
theorem resume_batch_sequence_not_reproduced :
    (train adNat tpTwoEpochs none [0, 1] shuffleId ⟨(), 0, 0⟩).trace
      ≠ prefixRun.trace
        ++ (train adNat tpTwoEpochs (some 1) [0, 1] shuffleRev prefixRun.st).trace := by
  decide

/-- C3 amended: resume determinism holds relative to the dataloader's
shuffle draws, which the code does not seed or persist.  For a fixed
configuration, dataset, and initial state, interrupt the run at epoch `E`
and restore exactly the numeric state the uninterrupted run had entering
epoch `E`.  Provided the restarted process's shuffle stream draws the same
per-epoch orderings the uninterrupted process draws for epochs
`E .. num_epochs - 1`, and every epoch yields at least one full batch, the
resumed run reproduces the uninterrupted run's remaining behaviour exactly:
the final numeric state (hence the parameter-update sequence), the batch
sequence fed to the joint reconstruction step, the per-iteration logs, and
the final epoch cursor all agree, and neither run errors.  Without the
shuffle proviso the batch sequence is not reproduced (see the
counterexample). -/
theorem resume_determinism (ad : ModelOps α P G) (tp : TrainParams)
    (ds dsE : List α) (σ σ' : ℕ → List α → List α) (init : TrainState P)
    (E : ℕ)
    (heff : effectiveDataset tp ds = Except.ok dsE)
    (hσ : ∀ i, σ' i = σ (E + i))
    (hB : 0 < tp.batch_size)
    (hlen : ∀ p, tp.batch_size ≤ (σ p dsE).length)
    (hE : E ≤ tp.num_epochs) :
    (train ad tp (some E) ds σ' (prefixLoop ad tp σ dsE init E).st).st
      = (train ad tp none ds σ init).st ∧
    (train ad tp (some E) ds σ' (prefixLoop ad tp σ dsE init E).st).error = none ∧
    (train ad tp none ds σ init).error = none ∧
    (train ad tp (some E) ds σ' (prefixLoop ad tp σ dsE init E).st).cursor
      = (train ad tp none ds σ init).cursor ∧
    (train ad tp none ds σ init).trace
      = (prefixLoop ad tp σ dsE init E).trace
        ++ (train ad tp (some E) ds σ' (prefixLoop ad tp σ dsE init E).st).trace ∧
    (train ad tp none ds σ init).iterLogs
      = (prefixLoop ad tp σ dsE init E).iterLogs
        ++ (train ad tp (some E) ds σ'
              (prefixLoop ad tp σ dsE init E).st).iterLogs := by
  rw [train_eq_ok ad tp none ds dsE σ init heff,
    train_eq_ok ad tp (some E) ds dsE σ' (prefixLoop ad tp σ dsE init E).st heff]
  simp only [startEpochOf, Nat.sub_zero]
  have hfun : ∀ i, σ' (0 + i) = σ (E + i) := fun i => by
    rw [Nat.zero_add]; exact hσ i
  rw [runLoop_shift ad (makeOptimizer tp) tp σ σ' dsE _ E 0 _ hfun]
  have hsplit : List.range' 0 tp.num_epochs
      = List.range' 0 E ++ List.range' E (tp.num_epochs - E) := by
    have h1 := List.range'_append_1 0 E (tp.num_epochs - E)
    rw [Nat.zero_add] at h1
    rw [(by omega : tp.num_epochs - E + E = tp.num_epochs)] at h1
    exact h1.symm
  rw [hsplit, runLoop_append ad (makeOptimizer tp) tp σ dsE
    (List.range' 0 E) (List.range' E (tp.num_epochs - E)) 0 _]
  rw [List.length_range', Nat.zero_add]
  have hpfx : runLoop ad (makeOptimizer tp) tp σ dsE (List.range' 0 E) 0
      { st := init, lastX := none, scheduler := trainScheduler tp none,
        checkpoints := [], cursor := 0, trace := [], iterLogs := [],
        error := none }
      = prefixLoop ad tp σ dsE init E := rfl
  rw [hpfx]
  have hpre := runLoop_range'_facts ad (makeOptimizer tp) tp σ dsE hB hlen
    E 0 0 (freshLoopAcc tp init) rfl
  have herrpre : (prefixLoop ad tp σ dsE init E).error = none := hpre.1
  have hschpre : (prefixLoop ad tp σ dsE init E).scheduler
      = trainScheduler tp (some E) := by
    have h2 : (prefixLoop ad tp σ dsE init E).scheduler
        = (trainScheduler tp none).stepN E := hpre.2.1
    rw [h2, trainScheduler_none, trainScheduler_some, MultiStepLR.stepN_eq]
    rw [(by omega : (0 : ℤ) + (E : ℤ) = (E : ℤ))]
  have hcurpre : (prefixLoop ad tp σ dsE init E).cursor = E := by
    rcases Nat.eq_zero_or_pos E with h0 | hpos
    · subst h0
      exact congrArg LoopAcc.cursor (hpre.2.2.1 rfl)
    · have h3 := (hpre.2.2.2 hpos).1
      rw [Nat.zero_add] at h3
      exact h3
  have hcongr := runLoop_congr ad (makeOptimizer tp) tp σ dsE hB hlen
    (List.range' E (tp.num_epochs - E)) E
    { st := (prefixLoop ad tp σ dsE init E).st, lastX := none,
      scheduler := trainScheduler tp (some E), checkpoints := [],
      cursor := E, trace := [], iterLogs := [], error := none }
    (prefixLoop ad tp σ dsE init E)
    rfl hschpre.symm hcurpre.symm rfl herrpre
  obtain ⟨hst', hsch', hcur', herr', T, L, ht₁, ht₂, hl₁, hl₂⟩ := hcongr
  have hres := runLoop_range'_facts ad (makeOptimizer tp) tp σ dsE hB hlen
    (tp.num_epochs - E) E E
    { st := (prefixLoop ad tp σ dsE init E).st, lastX := none,
      scheduler := trainScheduler tp (some E), checkpoints := [],
      cursor := E, trace := [], iterLogs := [], error := none } rfl
  have hfull := runLoop_range'_facts ad (makeOptimizer tp) tp σ dsE hB hlen
    (tp.num_epochs - E) E E (prefixLoop ad tp σ dsE init E) herrpre
  have tdR := teardown_fields (runLoop ad (makeOptimizer tp) tp σ dsE
    (List.range' E (tp.num_epochs - E)) E
    { st := (prefixLoop ad tp σ dsE init E).st, lastX := none,
      scheduler := trainScheduler tp (some E), checkpoints := [],
      cursor := E, trace := [], iterLogs := [], error := none })
  have tdF := teardown_fields (runLoop ad (makeOptimizer tp) tp σ dsE
    (List.range' E (tp.num_epochs - E)) E (prefixLoop ad tp σ dsE init E))
  refine ⟨?_, ?_, ?_, ?_, ?_, ?_⟩
  · rw [tdR.1, tdF.1]
    exact hst'
  · rw [tdR.2.2.2.1]
    exact hres.1
  · rw [tdF.2.2.2.1]
    exact hfull.1
  · rw [tdR.2.2.1, tdF.2.2.1]
    exact hcur'
  · rw [tdF.2.1, tdR.2.1, ht₂, ht₁]
    simp
  · rw [tdF.2.2.2.2.1, tdR.2.2.2.2.1, hl₂, hl₁]
    simp

/-- C3 witness: the amended theorem applied to the concrete two-epoch
scenario, resumed at epoch 1 with matching (identity) shuffle draws: every
hypothesis is discharged on concrete data and the resumed run reproduces
the uninterrupted run. -/
theorem resume_determinism_witness :
    effectiveDataset tpTwoEpochs [0, 1] = Except.ok (datasetRepeater 1 [0, 1]) ∧
    (∀ i, shuffleId i = shuffleId (1 + i)) ∧
    0 < tpTwoEpochs.batch_size ∧
    (∀ p, tpTwoEpochs.batch_size ≤ (shuffleId p (datasetRepeater 1 [0, 1])).length) ∧
    1 ≤ tpTwoEpochs.num_epochs ∧
    ((train adNat tpTwoEpochs (some 1) [0, 1] shuffleId
        (prefixLoop adNat tpTwoEpochs shuffleId (datasetRepeater 1 [0, 1])
          ⟨(), 0, 0⟩ 1).st).st
      = (train adNat tpTwoEpochs none [0, 1] shuffleId ⟨(), 0, 0⟩).st ∧
    (train adNat tpTwoEpochs (some 1) [0, 1] shuffleId
        (prefixLoop adNat tpTwoEpochs shuffleId (datasetRepeater 1 [0, 1])
          ⟨(), 0, 0⟩ 1).st).error = none ∧
    (train adNat tpTwoEpochs none [0, 1] shuffleId ⟨(), 0, 0⟩).error = none ∧
    (train adNat tpTwoEpochs (some 1) [0, 1] shuffleId
        (prefixLoop adNat tpTwoEpochs shuffleId (datasetRepeater 1 [0, 1])
          ⟨(), 0, 0⟩ 1).st).cursor
      = (train adNat tpTwoEpochs none [0, 1] shuffleId ⟨(), 0, 0⟩).cursor ∧
    (train adNat tpTwoEpochs none [0, 1] shuffleId ⟨(), 0, 0⟩).trace
      = (prefixLoop adNat tpTwoEpochs shuffleId (datasetRepeater 1 [0, 1])
          ⟨(), 0, 0⟩ 1).trace
        ++ (train adNat tpTwoEpochs (some 1) [0, 1] shuffleId
              (prefixLoop adNat tpTwoEpochs shuffleId (datasetRepeater 1 [0, 1])
                ⟨(), 0, 0⟩ 1).st).trace ∧
    (train adNat tpTwoEpochs none [0, 1] shuffleId ⟨(), 0, 0⟩).iterLogs
      = (prefixLoop adNat tpTwoEpochs shuffleId (datasetRepeater 1 [0, 1])
          ⟨(), 0, 0⟩ 1).iterLogs
        ++ (train adNat tpTwoEpochs (some 1) [0, 1] shuffleId
              (prefixLoop adNat tpTwoEpochs shuffleId (datasetRepeater 1 [0, 1])
                ⟨(), 0, 0⟩ 1).st).iterLogs) :=
  ⟨rfl, fun i => rfl, by decide,
    fun p => by
      show tpTwoEpochs.batch_size ≤ (datasetRepeater 1 [0, 1] : List ℕ).length
      decide,
    by decide,
    resume_determinism adNat tpTwoEpochs [0, 1] (datasetRepeater 1 [0, 1])
      shuffleId shuffleId ⟨(), 0, 0⟩ 1 rfl (fun i => rfl) (by decide)
      (fun p => by
        show tpTwoEpochs.batch_size ≤ (datasetRepeater 1 [0, 1] : List ℕ).length
        decide)
      (by decide)⟩
